import Mathlib

/-!
Verification of the BatchImageCreator core: a shallow embedding of the
session/workflow state machine (`app.py`) and the external-API adapter and
export helpers (`utils.py`), with theorems settling the specified properties.

Modelling conventions:
* Python strings are Lean `String`s; python `str.endswith` / `str.lower` /
  `str.strip` are modelled character-exactly by the helpers below.
* Decoded images are abstracted as opaque `Nat` identifiers (no pixel data is
  inspected by any of the code under verification).
* The streamlit session state is the `Session` structure; `st.warning`,
  `st.error` and `st.success` calls are modelled as emitted message lists.
* External effects (the OpenAI call, the filesystem, the network) are supplied
  as explicit parameters describing their outcome, so every branch of the
  source is represented; local OS-level operations that the source does not
  guard (e.g. `os.unlink` succeeding on an existing file) are abstracted as
  succeeding.
* `processing_progress` is a float in the source (`(i + 1) / total`); it is
  modelled as a rational number, which is exact for these values.
-/

/-- The characters python `str.strip()` removes (python whitespace). -/
def isPySpace (c : Char) : Bool :=
  c = ' ' || c = '\t' || c = '\n' || c = '\r' || c = Char.ofNat 11 || c = Char.ofNat 12

/-- Python `s.strip()`: drop whitespace from both ends. -/
def pyStrip (s : String) : String :=
  ⟨((s.data.dropWhile isPySpace).reverse.dropWhile isPySpace).reverse⟩

deriving instance DecidableEq for Except

/-- Python truthiness test `not s.strip()` used to detect blank prompts. -/
def isBlank (s : String) : Bool :=
  pyStrip s = ""

/-- `listStarts p l` : does `l` begin with `p`? -/
def listStarts : List Char → List Char → Bool
  | [], _ => true
  | _ :: _, [] => false
  | a :: as, b :: bs => a == b && listStarts as bs

/-- Python `s.endswith(t)`. -/
def strEndsWith (s t : String) : Bool :=
  listStarts t.data.reverse s.data.reverse

/-- Python `s.lower()` (ASCII case fold, which is exact for the literals the
source compares against). -/
def strLower (s : String) : String :=
  ⟨s.data.map Char.toLower⟩

/-- Association-list lookup, modelling python `dict` read `d.get(k)` / `d[k]`. -/
def alookup : List (Nat × String) → Nat → Option String
  | [], _ => none
  | (k, v) :: t, i => if k = i then some v else alookup t i

/-- Association-list write, modelling python `d[k] = v`. -/
def ainsert : List (Nat × String) → Nat → String → List (Nat × String)
  | [], i, v => [(i, v)]
  | (k, w) :: t, i, v => if k = i then (i, v) :: t else (k, w) :: ainsert t i v

/-- One entry of `st.session_state.processed_results`: a dict with keys
`image_path` and `response` (app.py lines 360-363, 368-371). -/
structure ResultRec where
  image_path : String
  response : String
deriving Repr, DecidableEq

/-! ## Edit adapter (`utils.edit_image_with_openai`, utils.py lines 58-134) -/

/-- Outcome of the external `client.images.edit` request: either the first
response datum (its optional `b64_json` and `url` fields; `some ""` models a
present-but-falsy attribute) or a raised transport/API error. -/
inductive ApiOutcome where
  | success (b64_json : Option String) (url : Option String)
  | failure (msg : String)
deriving Repr, DecidableEq

/-- The external effects of one `edit_image_with_openai` call:
whether `image.save` onto the temporary file raises (and with what message),
what the API request does, and the scratch directory / clock used to name a
persisted inline result. -/
structure EditEnv where
  serializeErr : Option String
  outcome : ApiOutcome
  tmpDir : String
  now : Nat
deriving Repr, DecidableEq

/-- What a call to the adapter did: the value returned or error raised, and
the lifecycle of the temporary outbound-image file. -/
structure EditCallResult where
  result : Except String String
  tmpCreated : Bool
  tmpRemoved : Bool
deriving Repr, DecidableEq

/-- Python truthiness of an optional string attribute
(`hasattr(x, f) and x.f`). -/
def truthy : Option String → Bool
  | none => false
  | some s => !(s == "")

/-- utils.py line 108: `os.path.join(tempfile.gettempdir(),
f"edited_image_{int(time.time())}.png")`. -/
def editedImagePath (env : EditEnv) : String :=
  env.tmpDir ++ "/edited_image_" ++ toString env.now ++ ".png"

/-- utils.py lines 58-134, `edit_image_with_openai`.  The temporary file is
created by `NamedTemporaryFile(delete=False)` before `image.save` writes to
it; the `try/finally` that unlinks it encloses only the API request and
response handling (lines 90-130), and every exception is re-raised wrapped as
`"OpenAI image edit error: ..."` by the outer handler (lines 132-134).
Local decode/write of an inline result (lines 105-112) is abstracted as
succeeding. -/
def edit_image_with_openai (env : EditEnv) (prompt : String) : EditCallResult :=
  match env.serializeErr with
  | some m => ⟨.error ("OpenAI image edit error: " ++ m), true, false⟩
  | none =>
    match env.outcome with
    | .failure m => ⟨.error ("OpenAI image edit error: " ++ m), true, true⟩
    | .success b64 url =>
      if truthy b64 then
        ⟨.ok (editedImagePath env), true, true⟩
      else if truthy url then
        ⟨.ok (url.getD ""), true, true⟩
      else
        ⟨.error "OpenAI image edit error: No image URL or data received in the response",
         true, true⟩

/-! ## Session state and the batch workflow controller (`app.py`) -/

/-- The streamlit session state fields the workflow reads and writes
(app.py lines 192-204, 316-317, 456-457).  An absent `edited_images` /
`individual_prompts` dict is identified with the empty one, since the source
initialises them to `{}` before every read. -/
structure Session where
  loaded_images : List Nat
  image_paths : List String
  processed_results : List ResultRec
  processing_complete : Bool
  processing_progress : Rat
  current_image_index : Nat
  individual_prompts : List (Nat × String)
  edited_images : List (Nat × String)
deriving Repr, DecidableEq

/-- app.py lines 193-204: initial session state. -/
def initialSession : Session :=
  ⟨[], [], [], false, 0, 0, [], []⟩

/-- Output of a workflow handler run: final session state, the `st.warning`
messages emitted, and the indices for which the edit adapter was invoked. -/
structure BatchOut where
  session : Session
  warnings : List String
  calls : List Nat
deriving Repr, DecidableEq

/-- app.py line 345: the skip warning for image `i` (0-based). -/
def warnMsg (i : Nat) : String :=
  "Skipping image " ++ toString (i + 1) ++ " because it has an empty prompt."

/-- app.py line 330 / 466: `image_paths[i] if i < len(image_paths) else
f"Image {i+1}"`. -/
def imgPathAt (s : Session) (i : Nat) : String :=
  s.image_paths.getD i ("Image " ++ toString (i + 1))

/-- app.py lines 338-341: the prompt used for image `i`
(`individual_prompts[i]` when present, else `""`). -/
def promptOf (s : Session) (i : Nat) : String :=
  (alookup s.individual_prompts i).getD ""

/-- One iteration of the `Edit All Images` loop (app.py lines 323-374) for
image index `i`.  `adapter i` is the outcome of `edit_image_with_openai` on
that image: `.ok ref` a returned result reference, `.error msg` a raised
exception message. -/
def batchStep (adapter : Nat → Except String String) (total : Nat)
    (acc : BatchOut) (i : Nat) : BatchOut :=
  let s0 := acc.session
  let s1 := { s0 with current_image_index := i,
                      processing_progress := ((i : Rat) + 1) / (total : Rat) }
  let img_path := imgPathAt s1 i
  let edit_prompt := promptOf s1 i
  if isBlank edit_prompt then
    { acc with session := s1, warnings := acc.warnings ++ [warnMsg i] }
  else
    match adapter i with
    | .ok ref =>
      { session :=
          { s1 with edited_images := ainsert s1.edited_images i ref,
                    processed_results := s1.processed_results ++
                      [⟨img_path, "Image edited with prompt: " ++ edit_prompt⟩] },
        warnings := acc.warnings,
        calls := acc.calls ++ [i] }
    | .error msg =>
      { session :=
          { s1 with processed_results := s1.processed_results ++
                      [⟨img_path, "Error: " ++ msg⟩] },
        warnings := acc.warnings,
        calls := acc.calls ++ [i] }

/-- The `Edit All Images` handler, main branch (app.py lines 308-377; reached
when an API key is entered and at least one image is loaded, lines 303-307).
It resets the run state (lines 310-313), clears `edited_images` (316-317),
iterates the loop body over every loaded image, and finally sets
`processing_complete` (line 376).  The fixed `time.sleep(0.5)` pacing delay
has no state effect and is not modelled. -/
def editAllImages (adapter : Nat → Except String String) (s : Session) : BatchOut :=
  let total := s.loaded_images.length
  let s0 := { s with processed_results := [], processing_complete := false,
                     processing_progress := 0, current_image_index := 0,
                     edited_images := [] }
  let out := (List.range total).foldl (batchStep adapter total) ⟨s0, [], []⟩
  { out with session := { out.session with processing_complete := true } }

/-- The result record iteration `i` appends (`none` when the image is skipped
for a blank prompt). -/
def recOf (adapter : Nat → Except String String) (s : Session) (i : Nat) :
    Option ResultRec :=
  if isBlank (promptOf s i) then none
  else some (match adapter i with
    | .ok _ => ⟨imgPathAt s i, "Image edited with prompt: " ++ promptOf s i⟩
    | .error msg => ⟨imgPathAt s i, "Error: " ++ msg⟩)

/-- The warning iteration `i` emits, if any. -/
def warnOf (s : Session) (i : Nat) : Option String :=
  if isBlank (promptOf s i) then some (warnMsg i) else none

/-- The `edited_images` entry iteration `i` adds, if any. -/
def okOf (adapter : Nat → Except String String) (s : Session) (i : Nat) :
    Option (Nat × String) :=
  if isBlank (promptOf s i) then none
  else match adapter i with
    | .ok ref => some (i, ref)
    | .error _ => none

/-- The per-image `Edit this image` handler (app.py lines 545-588).
`adapter` is the outcome of the single `edit_image_with_openai` call.
On an adapter error the handler only displays the error (line 588); the
session is untouched. -/
def editSingleImage (adapter : Except String String) (s : Session) (i : Nat) :
    Session × List String :=
  let edit_prompt := promptOf s i
  if isBlank edit_prompt then
    (s, ["Please enter a prompt or click some quick prompts before editing."])
  else
    match adapter with
    | .error _ => (s, [])
    | .ok ref =>
      let s1 := { s with edited_images := ainsert s.edited_images i ref }
      if !s1.processing_complete || s1.processed_results.length ≤ i then
        let base :=
          if s1.processed_results.length ≤ i then
            s1.processed_results ++
              List.replicate (i + 1 - s1.processed_results.length) ⟨"", ""⟩
          else s1.processed_results
        (( { s1 with processed_results :=
              base.set i ⟨imgPathAt s i, "Image edited with prompt: " ++ edit_prompt⟩ }),
         [])
      else (s1, [])

/-! ## Directory loading (`app.py` lines 264-298) -/

/-- One entry of `os.listdir(folder_path)`: its name, whether it is a regular
file, the decoded image (abstract id), and whether `Image.open`/convert/save
raises (collapsed into one optional message, app.py lines 280-291). -/
structure DirEntry where
  filename : String
  isFile : Bool
  img : Nat
  decodeErr : Option String
deriving Repr, DecidableEq

/-- app.py line 273. -/
def valid_extensions : List String := [".jpg", ".jpeg", ".png"]

/-- app.py line 278: `any(filename.lower().endswith(ext) for ext in
valid_extensions)`. -/
def hasValidExt (filename : String) : Bool :=
  valid_extensions.any (fun ext => strEndsWith (strLower filename) ext)

/-- Result of the `Load from Directory` handler: the session, the warnings
for undecodable files, and the count reported by the success message. -/
structure LoadOut where
  session : Session
  warnings : List String
  loaded_count : Nat
deriving Repr, DecidableEq

/-- Loop body of the directory scan (app.py lines 276-291). -/
def loadStep (folder : String) (acc : LoadOut) (e : DirEntry) : LoadOut :=
  if e.isFile && hasValidExt e.filename then
    match e.decodeErr with
    | none =>
      { acc with
        session := { acc.session with
          loaded_images := acc.session.loaded_images ++ [e.img],
          image_paths := acc.session.image_paths ++ [folder ++ "/" ++ e.filename] },
        loaded_count := acc.loaded_count + 1 }
    | some m =>
      { acc with warnings := acc.warnings ++
          ["Could not load " ++ e.filename ++ ": " ++ m] }
  else acc

/-- The `Load from Directory` handler, success branch (app.py lines 266-294,
reached when the path exists and is a directory): clears the four fields of
lines 268-271, then scans the given `os.listdir` entries in order. -/
def load_from_directory (folder : String) (entries : List DirEntry)
    (s : Session) : LoadOut :=
  let s0 := { s with loaded_images := [], image_paths := [],
                     processed_results := [], processing_complete := false }
  entries.foldl (loadStep folder) ⟨s0, [], 0⟩

/-- An entry the scan actually loads: a regular file with a supported
extension that decodes. -/
def goodEntry (e : DirEntry) : Bool :=
  e.isFile && hasValidExt e.filename && e.decodeErr.isNone

/-- The warning the scan emits for entry `e`, if any (app.py lines 290-291). -/
def loadWarnOf (e : DirEntry) : Option String :=
  if e.isFile && hasValidExt e.filename then
    match e.decodeErr with
    | some m => some ("Could not load " ++ e.filename ++ ": " ++ m)
    | none => none
  else none

/-! ## Preset-phrase appending (`app.py` lines 523-532) -/

/-- app.py lines 523-530, `add_preset_to_prompt`: read the current prompt for
`image_index`, append `" "` when it is non-empty and does not already end
with a space character, then append the preset and write it back. -/
def add_preset_to_prompt (prompts : List (Nat × String)) (preset_text : String)
    (image_index : Nat) : List (Nat × String) :=
  let current := (alookup prompts image_index).getD ""
  let current :=
    if current ≠ "" ∧ strEndsWith current " " = false then current ++ " " else current
  ainsert prompts image_index (current ++ preset_text)

/-! ## Zip packaging (`utils.create_zip_of_edited_images`, utils.py 172-237) -/

/-- One value of the `edited_images` dict, together with the outcome of
processing it: a string (URL or local path) whose fetch/decode/re-encode
pipeline succeeds or raises (the per-item `try` of lines 202-232), or a
non-string value, which the `isinstance` check at line 215 silently skips. -/
inductive ZipItem where
  | strOk (s : String)
  | strFail (s : String)
  | nonStr
deriving Repr, DecidableEq

/-- External effects of `create_zip_of_edited_images`: whether creating the
zip container itself (lines 185-199) succeeds, and the timestamp used in its
name. -/
structure ZipEnv where
  containerOk : Bool
  timestamp : String
deriving Repr, DecidableEq

/-- Python `os.path.basename` (posix): the part after the last `/`. -/
def basename (p : String) : String :=
  ⟨(p.data.reverse.takeWhile (fun c => !(c == '/'))).reverse⟩

/-- utils.py lines 203-212: the archive entry name for index `i`. -/
def zipEntryName (image_paths : List String) (i : Nat) : String :=
  let orig_name :=
    if i < image_paths.length then basename (image_paths.getD i "")
    else "image_" ++ toString (i + 1)
  let edited_filename := "edited_" ++ orig_name
  if strEndsWith (strLower edited_filename) ".png" then edited_filename
  else edited_filename ++ ".png"

/-- The names written into the archive: one per dict item whose string data
processes successfully, in iteration order. -/
def zipEntriesOf (edited : List (Nat × ZipItem)) (image_paths : List String) :
    List String :=
  edited.filterMap (fun x =>
    match x.2 with
    | .strOk _ => some (zipEntryName image_paths x.1)
    | _ => none)

/-- utils.py lines 172-237, `create_zip_of_edited_images`: `none` when the
outer `try` fails (the archive container cannot be built), otherwise the zip
path and the entries written; each per-item failure is caught at lines
230-232 and skipped. -/
def create_zip_of_edited_images (env : ZipEnv) (edited : List (Nat × ZipItem))
    (image_paths : List String) : Option (String × List String) :=
  if env.containerOk then
    some ("/tmp/edited_images_" ++ env.timestamp ++ ".zip",
      edited.foldl (fun acc x =>
        match x.2 with
        | .strOk _ => acc ++ [zipEntryName image_paths x.1]
        | _ => acc) [])
  else none

/-! ## Export (`utils.save_results_to_file`, utils.py 136-170) -/

/-- A minimal JSON value, enough for what `json.dump` writes here. -/
inductive JVal where
  | str (s : String)
  | arr (elems : List JVal)
  | obj (fields : List (String × JVal))

/-- The JSON object `json.dump` writes for one result dict (insertion order
`image_path`, `response`; app.py lines 360-363). -/
def encodeResult (r : ResultRec) : JVal :=
  .obj [("image_path", .str r.image_path), ("response", .str r.response)]

/-- The JSON document `json.dump(results, ...)` writes (utils.py line 159). -/
def encodeResults (results : List ResultRec) : JVal :=
  .arr (results.map encodeResult)

/-- Key lookup in a decoded JSON object: field order insensitive. -/
def jlookup : List (String × JVal) → String → Option JVal
  | [], _ => none
  | (k, v) :: t, key => if k = key then some v else jlookup t key

/-- Decoding one result record back from JSON, by key (field order aside). -/
def decodeResult (v : JVal) : Option ResultRec :=
  match v with
  | .obj fields =>
    match jlookup fields "image_path", jlookup fields "response" with
    | some (.str p), some (.str r) => some ⟨p, r⟩
    | _, _ => none
  | _ => none

/-- Decoding a list of result records. -/
def decodeResultList : List JVal → Option (List ResultRec)
  | [] => some []
  | v :: t =>
    match decodeResult v, decodeResultList t with
    | some r, some rs => some (r :: rs)
    | _, _ => none

/-- Decoding the written file (`json.load`), restricted to the shape the
exporter writes. -/
def decodeResults : JVal → Option (List ResultRec)
  | .arr l => decodeResultList l
  | _ => none

/-- The file `save_results_to_file` writes. -/
inductive SavedFile where
  | jsonFile (path : String) (content : JVal)
  | textFile (path : String) (content : String)

/-- `c` repeated `n` times, modelling python `c * n` on a 1-char string. -/
def repeatChar (c : Char) (n : Nat) : String :=
  ⟨List.replicate n c⟩

/-- utils.py lines 164-168: the text block written for one record. -/
def textBlock (r : ResultRec) : String :=
  "Image: " ++ r.image_path ++ "\n" ++ repeatChar '-' 50 ++ "\n" ++
    r.response ++ "\n\n" ++ repeatChar '=' 70 ++ "\n\n"

/-- The full text-format output. -/
def renderText (results : List ResultRec) : String :=
  results.foldl (fun acc r => acc ++ textBlock r) ""

/-- utils.py lines 136-170, `save_results_to_file`: `desktopDir` is the
resolved output directory (Desktop, or the temp dir fallback of lines
151-153) and `timestamp` the formatted time of line 148.  Exactly the string
`"json"` selects JSON; every other `format_type` value falls into the `else`
branch and produces the text file. -/
def save_results_to_file (desktopDir timestamp : String)
    (results : List ResultRec) (format_type : String) : SavedFile :=
  if format_type = "json" then
    .jsonFile (desktopDir ++ "/image_analysis_" ++ timestamp ++ ".json")
      (encodeResults results)
  else
    .textFile (desktopDir ++ "/image_analysis_" ++ timestamp ++ ".txt")
      (renderText results)

/-! ## Helper lemmas -/

theorem listStarts_self_append (p r : List Char) : listStarts p (p ++ r) = true := by
  induction p with
  | nil => rfl
  | cons a as ih => simp [listStarts, ih]

theorem strEndsWith_append (x y : String) : strEndsWith (x ++ y) y = true := by
  unfold strEndsWith
  rw [String.data_append, List.reverse_append]
  exact listStarts_self_append y.data.reverse x.data.reverse

theorem strLower_append (x y : String) : strLower (x ++ y) = strLower x ++ strLower y := by
  cases x
  cases y
  exact congrArg String.mk (List.map_append _ _ _)

theorem alookup_ainsert_self (l : List (Nat × String)) (k : Nat) (v : String) :
    alookup (ainsert l k v) k = some v := by
  induction l with
  | nil => simp [ainsert, alookup]
  | cons p t ih =>
    by_cases h : p.1 = k
    · simp [ainsert, alookup, h]
    · simp [ainsert, alookup, h, ih]

theorem alookup_append (l m : List (Nat × String)) (i : Nat) :
    alookup (l ++ m) i =
      match alookup l i with
      | some v => some v
      | none => alookup m i := by
  induction l with
  | nil => simp [alookup]
  | cons p t ih =>
    by_cases h : p.1 = i
    · simp [alookup, h]
    · simp [alookup, h, ih]

theorem alookup_eq_none (l : List (Nat × String)) (i : Nat)
    (h : ∀ p ∈ l, p.1 ≠ i) : alookup l i = none := by
  induction l with
  | nil => rfl
  | cons p t ih =>
    have hp : p.1 ≠ i := h p (by simp)
    simp only [alookup, if_neg hp]
    exact ih (fun q hq => h q (by simp [hq]))

theorem ainsert_of_alookup_none (l : List (Nat × String)) (k : Nat) (v : String)
    (h : alookup l k = none) : ainsert l k v = l ++ [(k, v)] := by
  induction l with
  | nil => rfl
  | cons p t ih =>
    by_cases hp : p.1 = k
    · simp [alookup, hp] at h
    · simp only [alookup, if_neg hp] at h
      simp [ainsert, hp, ih h]

theorem decodeResult_encodeResult (r : ResultRec) :
    decodeResult (encodeResult r) = some r := by
  simp [decodeResult, encodeResult, jlookup]

theorem decodeResultList_map_encodeResult (l : List ResultRec) :
    decodeResultList (l.map encodeResult) = some l := by
  induction l with
  | nil => rfl
  | cons r t ih => simp [decodeResultList, decodeResult_encodeResult, ih]

theorem zipEntriesOf_fold (image_paths : List String) (edited : List (Nat × ZipItem))
    (acc : List String) :
    edited.foldl (fun acc x =>
        match x.2 with
        | .strOk _ => acc ++ [zipEntryName image_paths x.1]
        | _ => acc) acc = acc ++ zipEntriesOf edited image_paths := by
  induction edited generalizing acc with
  | nil => simp [zipEntriesOf]
  | cons e t ih =>
    match he : e.2 with
    | .strOk s => simp [zipEntriesOf, List.foldl_cons, he, ih]
    | .strFail s => simp [zipEntriesOf, List.foldl_cons, he, ih]
    | .nonStr => simp [zipEntriesOf, List.foldl_cons, he, ih]

theorem zipEntryName_shape (image_paths : List String) (i : Nat) :
    ∃ rest, zipEntryName image_paths i = "edited_" ++ rest ∧
      strEndsWith (strLower (zipEntryName image_paths i)) ".png" = true := by
  have key : ∀ orig : String,
      ∃ rest, (if strEndsWith (strLower ("edited_" ++ orig)) ".png" then "edited_" ++ orig
               else ("edited_" ++ orig) ++ ".png") = "edited_" ++ rest ∧
        strEndsWith (strLower
          (if strEndsWith (strLower ("edited_" ++ orig)) ".png" then "edited_" ++ orig
           else ("edited_" ++ orig) ++ ".png")) ".png" = true := by
    intro orig
    by_cases h : strEndsWith (strLower ("edited_" ++ orig)) ".png" = true
    · exact ⟨orig, by rw [if_pos h], by rw [if_pos h]; exact h⟩
    · refine ⟨orig ++ ".png", ?_, ?_⟩
      · rw [if_neg h, String.append_assoc]
      · rw [if_neg h, strLower_append]
        exact strEndsWith_append _ _
  exact key _

/-! ## Claim theorems -/

/-- Claim C1, counterexample: with a concrete environment in which `image.save`
raises while serializing the image into the temporary file, the temporary file
has been created (by `NamedTemporaryFile`) but is not removed when the call
returns, because the `try/finally` that unlinks it is entered only after the
serialization block.  This refutes the claim that the file is removed on every
exit path including serialization failures. -/
theorem C1_counterexample :
    (edit_image_with_openai ⟨some "disk full", .success none none, "/tmp", 0⟩ "p").tmpCreated
        = true ∧
    (edit_image_with_openai ⟨some "disk full", .success none none, "/tmp", 0⟩ "p").tmpRemoved
        = false := by
  decide

/-- Claim C1 (amended): the temporary outbound-image file is removed before the
call returns on every exit path that reaches the API-request phase — success,
API error, or the empty-response error — but when the local serialization of
the image into the temporary file itself fails, the call returns the wrapped
error and the already-created temporary file is not removed. -/
theorem C1_tmpfile_scoped (env : EditEnv) (p : String) :
    (env.serializeErr = none → (edit_image_with_openai env p).tmpRemoved = true) ∧
    (∀ m, env.serializeErr = some m →
      (edit_image_with_openai env p).tmpCreated = true ∧
      (edit_image_with_openai env p).tmpRemoved = false) := by
  constructor
  · intro h
    match env, h with
    | ⟨none, out, d, n⟩, _ =>
      match out with
      | .failure m => rfl
      | .success b64 url =>
        by_cases hb : truthy b64 = true
        · simp [edit_image_with_openai, hb]
        · by_cases hu : truthy url = true <;>
            simp [edit_image_with_openai, hb, hu]
  · intro m h
    match env, h with
    | ⟨some m, out, d, n⟩, rfl => exact ⟨rfl, rfl⟩

/-- Claim C1 witness: instantiating the amended theorem at a concrete
environment where the API call raises. -/
theorem C1_witness :
    (edit_image_with_openai ⟨none, .failure "rate limited", "/tmp", 7⟩ "p").tmpRemoved = true :=
  (C1_tmpfile_scoped ⟨none, .failure "rate limited", "/tmp", 7⟩ "p").1 rfl

/-- Claim C5, counterexample: `add_preset_to_prompt` checks
`current_prompt.endswith(" ")` — a single space — not arbitrary whitespace.
With a current prompt ending in the whitespace character `'\n'`, the code
still inserts a separating space, producing `"tidy\n P"`, whereas the claim
("inserts a space only when the text does not already end with whitespace")
predicts `"tidy\nP"`. -/
theorem C5_counterexample :
    alookup (add_preset_to_prompt [(0, "tidy\n")] "P" 0) 0 = some "tidy\n P" ∧
    isPySpace '\n' = true ∧ ("tidy\n P" : String) ≠ "tidy\nP" := by
  decide

/-- Claim C5 (amended): `add_preset_to_prompt` reads the current prompt text,
inserts exactly one separating space when the current text is non-empty and
does not already end with the space character `" "` (text ending in other
whitespace such as `'\n'` still receives a space), then concatenates the
phrase; applied twice with a phrase P that is non-empty and does not end in a
space, starting from an empty prompt store, it yields `P ++ " " ++ P` — never
deduplicated. -/
theorem C5_append_preset (prompts : List (Nat × String)) (phrase : String) (i : Nat) :
    (alookup (add_preset_to_prompt prompts phrase i) i =
      some (if (alookup prompts i).getD "" ≠ "" ∧
               strEndsWith ((alookup prompts i).getD "") " " = false
            then (alookup prompts i).getD "" ++ " " ++ phrase
            else (alookup prompts i).getD "" ++ phrase)) ∧
    (phrase ≠ "" → strEndsWith phrase " " = false →
      alookup (add_preset_to_prompt (add_preset_to_prompt [] phrase 0) phrase 0) 0 =
        some (phrase ++ " " ++ phrase)) := by
  have general : ∀ ps ph k, alookup (add_preset_to_prompt ps ph k) k =
      some (if (alookup ps k).getD "" ≠ "" ∧
               strEndsWith ((alookup ps k).getD "") " " = false
            then (alookup ps k).getD "" ++ " " ++ ph
            else (alookup ps k).getD "" ++ ph) := by
    intro ps ph k
    unfold add_preset_to_prompt
    rw [alookup_ainsert_self]
    by_cases h : (alookup ps k).getD "" ≠ "" ∧
        strEndsWith ((alookup ps k).getD "") " " = false
    · rw [if_pos h, if_pos h]
    · rw [if_neg h, if_neg h]
  refine ⟨general prompts phrase i, ?_⟩
  intro hne hsp
  have h1 : alookup (add_preset_to_prompt [] phrase 0) 0 = some phrase := by
    rw [general [] phrase 0]
    simp [alookup, String.empty_append]
  rw [general (add_preset_to_prompt [] phrase 0) phrase 0, h1]
  simp [hne, hsp]

/-- Claim C5 witness: the amended double-application property at the concrete
preset phrase `"Declutter this room"`. -/
theorem C5_witness :
    alookup (add_preset_to_prompt
      (add_preset_to_prompt [] "Declutter this room" 0) "Declutter this room" 0) 0 =
      some ("Declutter this room" ++ " " ++ "Declutter this room") :=
  (C5_append_preset [] "Declutter this room" 0).2 (by decide) (by decide)

/-- Claim C6: given that serialization succeeded (so an external response is
obtained), the adapter returns the freshly timestamped local file path when
inline base64 bytes are present, otherwise the URL when one is present,
otherwise raises; and an API failure is re-raised as a single adapter-level
error whose message ends with the original error message. -/
theorem C6_adapter_response (env : EditEnv) (p : String)
    (hser : env.serializeErr = none) :
    (∀ msg, env.outcome = .failure msg →
      (edit_image_with_openai env p).result = .error ("OpenAI image edit error: " ++ msg) ∧
      strEndsWith ("OpenAI image edit error: " ++ msg) msg = true) ∧
    (∀ b64 url, env.outcome = .success b64 url →
      (truthy b64 = true →
        (edit_image_with_openai env p).result = .ok (editedImagePath env)) ∧
      (truthy b64 = false → truthy url = true →
        (edit_image_with_openai env p).result = .ok (url.getD "")) ∧
      (truthy b64 = false → truthy url = false →
        (edit_image_with_openai env p).result =
          .error "OpenAI image edit error: No image URL or data received in the response")) := by
  match env, hser with
  | ⟨none, out, d, n⟩, _ =>
    constructor
    · intro msg hmsg
      subst hmsg
      exact ⟨rfl, strEndsWith_append "OpenAI image edit error: " msg⟩
    · intro b64 url hout
      subst hout
      refine ⟨?_, ?_, ?_⟩
      · intro hb
        simp [edit_image_with_openai, hb]
      · intro hb hu
        simp [edit_image_with_openai, hb, hu]
      · intro hb hu
        simp [edit_image_with_openai, hb, hu]

/-- Claim C6 witness: a concrete response carrying inline base64 bytes yields
the timestamped local path. -/
theorem C6_witness :
    (edit_image_with_openai ⟨none, .success (some "QUJD") none, "/tmp", 42⟩ "p").result =
      .ok "/tmp/edited_image_42.png" :=
  (((C6_adapter_response ⟨none, .success (some "QUJD") none, "/tmp", 42⟩ "p" rfl).2
      (some "QUJD") none rfl).1 rfl).trans (by decide)

/-- Claim C7: `create_zip_of_edited_images` returns `none` exactly when the
archive container itself cannot be built; otherwise it returns the archive
path together with one entry per successfully processed string-valued item —
per-item resolve/decode/re-encode failures (and non-string values) are
skipped without aborting — and every written entry name is
`edited_<original-name>` with a (case-insensitive) `.png` extension forced. -/
theorem C7_zip_packaging (env : ZipEnv) (edited : List (Nat × ZipItem))
    (image_paths : List String) :
    (create_zip_of_edited_images env edited image_paths = none ↔ env.containerOk = false) ∧
    (env.containerOk = true →
      create_zip_of_edited_images env edited image_paths =
        some ("/tmp/edited_images_" ++ env.timestamp ++ ".zip",
              zipEntriesOf edited image_paths)) ∧
    (∀ name ∈ zipEntriesOf edited image_paths,
      ∃ rest, name = "edited_" ++ rest ∧
        strEndsWith (strLower name) ".png" = true) := by
  refine ⟨?_, ?_, ?_⟩
  · unfold create_zip_of_edited_images
    by_cases h : env.containerOk = true <;> simp [h]
  · intro h
    unfold create_zip_of_edited_images
    rw [if_pos h, zipEntriesOf_fold, List.nil_append]
  · intro name hname
    unfold zipEntriesOf at hname
    obtain ⟨x, hx, hmap⟩ := List.mem_filterMap.mp hname
    match hx2 : x.2 with
    | .strOk s =>
      rw [hx2] at hmap
      simp only [Option.some.injEq] at hmap
      subst hmap
      exact zipEntryName_shape image_paths x.1
    | .strFail s => rw [hx2] at hmap; simp at hmap
    | .nonStr => rw [hx2] at hmap; simp at hmap

/-- Claim C7 witness: the §8 scenario — one valid URL-backed item and one
unreadable local-path item — returns a non-null archive containing exactly the
one entry `edited_a.jpg.png`. -/
theorem C7_witness :
    create_zip_of_edited_images ⟨true, "20260101_000000"⟩
      [(0, .strOk "https://img.example/x"), (1, .strFail "/missing/file.png")]
      ["/photos/a.jpg", "/photos/b.jpg"] =
      some ("/tmp/edited_images_20260101_000000.zip", ["edited_a.jpg.png"]) :=
  ((C7_zip_packaging ⟨true, "20260101_000000"⟩
      [(0, .strOk "https://img.example/x"), (1, .strFail "/missing/file.png")]
      ["/photos/a.jpg", "/photos/b.jpg"]).2.1 rfl).trans (by decide)

/-- Claim C8: exporting with format `"json"` writes the JSON serialization of
the results list to the timestamped `.json` path, and decoding that document
(field order aside, since decoding is by key) yields a list equal to the
input results list. -/
theorem C8_json_roundtrip (desktopDir timestamp : String) (results : List ResultRec) :
    save_results_to_file desktopDir timestamp results "json" =
      .jsonFile (desktopDir ++ "/image_analysis_" ++ timestamp ++ ".json")
        (encodeResults results) ∧
    decodeResults (encodeResults results) = some results := by
  constructor
  · rfl
  · unfold decodeResults encodeResults
    exact decodeResultList_map_encodeResult results

/-- Claim C10: every `format_type` other than the exact string `"json"` —
misspellings, different case, arbitrary strings — silently produces the
text-format output file with a `.txt` extension; no format value is ever
rejected. -/
theorem C10_nonjson_is_text (desktopDir timestamp : String)
    (results : List ResultRec) (format_type : String) (h : format_type ≠ "json") :
    save_results_to_file desktopDir timestamp results format_type =
      .textFile (desktopDir ++ "/image_analysis_" ++ timestamp ++ ".txt")
        (renderText results) := by
  unfold save_results_to_file
  rw [if_neg h]

/-- Claim C10 witness: the misspelled/odd-case format `"Json"` is treated as
text. -/
theorem C10_witness :
    save_results_to_file "/home/user/Desktop" "20260101_000000"
      [⟨"/photos/a.jpg", "ok"⟩] "Json" =
      .textFile "/home/user/Desktop/image_analysis_20260101_000000.txt"
        (renderText [⟨"/photos/a.jpg", "ok"⟩]) :=
  C10_nonjson_is_text "/home/user/Desktop" "20260101_000000"
    [⟨"/photos/a.jpg", "ok"⟩] "Json" (by decide)

/-! ## Directory-scan characterization and claim C2 -/

theorem load_foldl_eq (folder : String) (entries : List DirEntry) (acc : LoadOut) :
    entries.foldl (loadStep folder) acc =
      ⟨{ acc.session with
          loaded_images := acc.session.loaded_images ++
            (entries.filter goodEntry).map DirEntry.img,
          image_paths := acc.session.image_paths ++
            (entries.filter goodEntry).map (fun e => folder ++ "/" ++ e.filename) },
        acc.warnings ++ entries.filterMap loadWarnOf,
        acc.loaded_count + (entries.filter goodEntry).length⟩ := by
  induction entries generalizing acc with
  | nil =>
    rcases acc with ⟨⟨a1, a2, a3, a4, a5, a6, a7, a8⟩, w, n⟩
    simp
  | cons e t ih =>
    rw [List.foldl_cons, ih]
    by_cases hf : (e.isFile && hasValidExt e.filename) = true
    · match hd : e.decodeErr with
      | none =>
        have hg : goodEntry e = true := by
          simp only [goodEntry, hd, Option.isNone_none, Bool.and_true]
          exact hf
        simp [loadStep, loadWarnOf, hf, hd, hg, List.filter_cons, List.filterMap_cons,
          List.append_assoc, Nat.add_assoc, Nat.add_comm 1]
      | some m =>
        have hg : goodEntry e = false := by
          simp [goodEntry, hd]
        simp [loadStep, loadWarnOf, hf, hd, hg, List.filter_cons, List.filterMap_cons,
          List.append_assoc]
    · have hg : goodEntry e = false := by
        simp only [goodEntry]
        rw [Bool.and_eq_false_iff]
        left
        exact (Bool.not_eq_true _).mp hf
      simp [loadStep, loadWarnOf, hf, hg, List.filter_cons, List.filterMap_cons]

/-- Claim C2, counterexample: a concrete prior session holding a prompt entry,
an edited-image entry, a non-zero progress fraction and a current index.  A
successful `load_from_directory` run (it loads one image and reports count 1)
replaces the loaded images and clears the result list, but leaves the prompt
entries, the edited-images mapping, the progress fraction and the current
index untouched — refuting the claim that prompts, edit results and progress
are all cleared. -/
theorem C2_counterexample :
    (load_from_directory "/d" [⟨"b.png", true, 9, none⟩]
      ⟨[7], ["/old/a.png"], [⟨"/old/a.png", "done"⟩], true, 1, 3,
       [(0, "old prompt")], [(0, "/tmp/e.png")]⟩).loaded_count = 1 ∧
    (load_from_directory "/d" [⟨"b.png", true, 9, none⟩]
      ⟨[7], ["/old/a.png"], [⟨"/old/a.png", "done"⟩], true, 1, 3,
       [(0, "old prompt")], [(0, "/tmp/e.png")]⟩).session.loaded_images = [9] ∧
    (load_from_directory "/d" [⟨"b.png", true, 9, none⟩]
      ⟨[7], ["/old/a.png"], [⟨"/old/a.png", "done"⟩], true, 1, 3,
       [(0, "old prompt")], [(0, "/tmp/e.png")]⟩).session.individual_prompts =
      [(0, "old prompt")] ∧
    (load_from_directory "/d" [⟨"b.png", true, 9, none⟩]
      ⟨[7], ["/old/a.png"], [⟨"/old/a.png", "done"⟩], true, 1, 3,
       [(0, "old prompt")], [(0, "/tmp/e.png")]⟩).session.edited_images =
      [(0, "/tmp/e.png")] ∧
    (load_from_directory "/d" [⟨"b.png", true, 9, none⟩]
      ⟨[7], ["/old/a.png"], [⟨"/old/a.png", "done"⟩], true, 1, 3,
       [(0, "old prompt")], [(0, "/tmp/e.png")]⟩).session.processing_progress = 1 ∧
    (load_from_directory "/d" [⟨"b.png", true, 9, none⟩]
      ⟨[7], ["/old/a.png"], [⟨"/old/a.png", "done"⟩], true, 1, 3,
       [(0, "old prompt")], [(0, "/tmp/e.png")]⟩).session.current_image_index = 3 := by
  decide

/-- Claim C2 (amended): a successful `load_from_directory` run replaces the
loaded images and image paths with exactly the scanned batch (the regular
files with a supported extension that decode, in scan order) and clears the
processed-results list and the completion flag — but it leaves the prompt
entries, the edited-images mapping, the progress fraction and the current
image index of the prior session unchanged. -/
theorem C2_load_replaces_batch (folder : String) (entries : List DirEntry)
    (s : Session) :
    (load_from_directory folder entries s).session.loaded_images =
      (entries.filter goodEntry).map DirEntry.img ∧
    (load_from_directory folder entries s).session.image_paths =
      (entries.filter goodEntry).map (fun e => folder ++ "/" ++ e.filename) ∧
    (load_from_directory folder entries s).session.processed_results = [] ∧
    (load_from_directory folder entries s).session.processing_complete = false ∧
    (load_from_directory folder entries s).loaded_count =
      (entries.filter goodEntry).length ∧
    (load_from_directory folder entries s).warnings = entries.filterMap loadWarnOf ∧
    (load_from_directory folder entries s).session.individual_prompts =
      s.individual_prompts ∧
    (load_from_directory folder entries s).session.edited_images = s.edited_images ∧
    (load_from_directory folder entries s).session.processing_progress =
      s.processing_progress ∧
    (load_from_directory folder entries s).session.current_image_index =
      s.current_image_index := by
  unfold load_from_directory
  rw [load_foldl_eq]
  simp

/-! ## Batch-run characterization -/

theorem promptOf_congr (s1 s2 : Session) (i : Nat)
    (h : s1.individual_prompts = s2.individual_prompts) :
    promptOf s1 i = promptOf s2 i := by
  unfold promptOf
  rw [h]

theorem imgPathAt_congr (s1 s2 : Session) (i : Nat)
    (h : s1.image_paths = s2.image_paths) :
    imgPathAt s1 i = imgPathAt s2 i := by
  unfold imgPathAt
  rw [h]

theorem recOf_congr (a : Nat → Except String String) (s1 s2 : Session) (i : Nat)
    (hp : s1.individual_prompts = s2.individual_prompts)
    (hq : s1.image_paths = s2.image_paths) :
    recOf a s1 i = recOf a s2 i := by
  unfold recOf
  rw [promptOf_congr s1 s2 i hp, imgPathAt_congr s1 s2 i hq]

theorem warnOf_congr (s1 s2 : Session) (i : Nat)
    (hp : s1.individual_prompts = s2.individual_prompts) :
    warnOf s1 i = warnOf s2 i := by
  unfold warnOf
  rw [promptOf_congr s1 s2 i hp]

theorem okOf_congr (a : Nat → Except String String) (s1 s2 : Session) (i : Nat)
    (hp : s1.individual_prompts = s2.individual_prompts) :
    okOf a s1 i = okOf a s2 i := by
  unfold okOf
  rw [promptOf_congr s1 s2 i hp]

theorem okOf_key (a : Nat → Except String String) (s : Session) (i : Nat)
    (q : Nat × String) (h : okOf a s i = some q) : q.1 = i := by
  unfold okOf at h
  by_cases hb : isBlank (promptOf s i) = true
  · rw [if_pos hb] at h
    exact absurd h (by simp)
  · rw [if_neg hb] at h
    match ha : a i with
    | .ok r => rw [ha] at h; cases h; rfl
    | .error m => rw [ha] at h; exact absurd h (by simp)

theorem okOf_of_error (a : Nat → Except String String) (s : Session) (i : Nat)
    (msg : String) (h : a i = .error msg) : okOf a s i = none := by
  unfold okOf
  by_cases hb : isBlank (promptOf s i) = true
  · rw [if_pos hb]
  · rw [if_neg hb, h]

theorem okOf_eq_some (a : Nat → Except String String) (s : Session) (i : Nat)
    (q : Nat × String) (h : okOf a s i = some q) :
    isBlank (promptOf s i) = false ∧ a i = .ok q.2 := by
  unfold okOf at h
  by_cases hb : isBlank (promptOf s i) = true
  · rw [if_pos hb] at h
    exact absurd h (by simp)
  · rw [if_neg hb] at h
    refine ⟨by simpa using hb, ?_⟩
    match ha : a i with
    | .ok r => rw [ha] at h; cases h; rfl
    | .error m => rw [ha] at h; exact absurd h (by simp)

theorem batchStep_fields (a : Nat → Except String String) (t : Nat)
    (acc : BatchOut) (i : Nat) :
    (batchStep a t acc i).session.individual_prompts = acc.session.individual_prompts ∧
    (batchStep a t acc i).session.image_paths = acc.session.image_paths ∧
    (batchStep a t acc i).session.loaded_images = acc.session.loaded_images ∧
    (batchStep a t acc i).session.processed_results =
      acc.session.processed_results ++ (recOf a acc.session i).toList ∧
    (batchStep a t acc i).warnings =
      acc.warnings ++ (warnOf acc.session i).toList ∧
    (batchStep a t acc i).calls =
      acc.calls ++ (if isBlank (promptOf acc.session i) then [] else [i]) := by
  simp only [batchStep, recOf, warnOf, promptOf, imgPathAt]
  by_cases hb : isBlank ((alookup acc.session.individual_prompts i).getD "") = true
  · simp [hb]
  · match ha : a i with
    | .ok r => simp [hb, ha]
    | .error m => simp [hb, ha]

theorem batchStep_edited (a : Nat → Except String String) (t : Nat)
    (acc : BatchOut) (i : Nat)
    (h : alookup acc.session.edited_images i = none) :
    (batchStep a t acc i).session.edited_images =
      acc.session.edited_images ++ (okOf a acc.session i).toList := by
  simp only [batchStep, okOf, promptOf]
  by_cases hb : isBlank ((alookup acc.session.individual_prompts i).getD "") = true
  · simp [hb]
  · match ha : a i with
    | .ok r =>
      simp only [hb, Bool.false_eq_true, if_false, ha, Option.toList_some]
      exact ainsert_of_alookup_none acc.session.edited_images i r h
    | .error m => simp [hb, ha]

theorem filterMap_singleton_toList {α β : Type} (f : α → Option β) (x : α) :
    List.filterMap f [x] = (f x).toList := by
  cases h : f x <;> simp [List.filterMap_cons, h]

theorem batch_foldl_spec (a : Nat → Except String String) (t : Nat)
    (acc : BatchOut) (n : Nat)
    (hE : ∀ j, j < n → alookup acc.session.edited_images j = none) :
    ((List.range n).foldl (batchStep a t) acc).session.individual_prompts =
        acc.session.individual_prompts ∧
    ((List.range n).foldl (batchStep a t) acc).session.image_paths =
        acc.session.image_paths ∧
    ((List.range n).foldl (batchStep a t) acc).session.loaded_images =
        acc.session.loaded_images ∧
    ((List.range n).foldl (batchStep a t) acc).session.processed_results =
        acc.session.processed_results ++
          (List.range n).filterMap (recOf a acc.session) ∧
    ((List.range n).foldl (batchStep a t) acc).warnings =
        acc.warnings ++ (List.range n).filterMap (warnOf acc.session) ∧
    ((List.range n).foldl (batchStep a t) acc).calls =
        acc.calls ++ (List.range n).filter
          (fun j => !isBlank (promptOf acc.session j)) ∧
    ((List.range n).foldl (batchStep a t) acc).session.edited_images =
        acc.session.edited_images ++
          (List.range n).filterMap (okOf a acc.session) := by
  induction n with
  | zero => simp
  | succ n ih =>
    obtain ⟨h1, h2, h3, h4, h5, h6, h7⟩ :=
      ih (fun j hj => hE j (Nat.lt_succ_of_lt hj))
    have hrange : List.range (n + 1) = List.range n ++ [n] := List.range_succ n
    rw [hrange, List.foldl_append, List.foldl_cons, List.foldl_nil]
    set prev := (List.range n).foldl (batchStep a t) acc with hprev
    have hlook : alookup prev.session.edited_images n = none := by
      rw [h7, alookup_append]
      have hacc : alookup acc.session.edited_images n = none :=
        hE n (Nat.lt_succ_self n)
      rw [hacc]
      apply alookup_eq_none
      intro p hp
      obtain ⟨j, hj, hjp⟩ := List.mem_filterMap.mp hp
      have hkey : p.1 = j := okOf_key a acc.session j p hjp
      have hjn : j < n := List.mem_range.mp hj
      omega
    obtain ⟨g1, g2, g3, g4, g5, g6⟩ := batchStep_fields a t prev n
    have ge := batchStep_edited a t prev n hlook
    refine ⟨?_, ?_, ?_, ?_, ?_, ?_, ?_⟩
    · rw [g1, h1]
    · rw [g2, h2]
    · rw [g3, h3]
    · rw [g4, h4, recOf_congr a prev.session acc.session n h1 h2,
        List.filterMap_append, filterMap_singleton_toList, List.append_assoc]
    · rw [g5, h5, warnOf_congr prev.session acc.session n h1,
        List.filterMap_append, filterMap_singleton_toList, List.append_assoc]
    · rw [g6, h6, promptOf_congr prev.session acc.session n h1,
        List.filter_append, List.append_assoc]
      by_cases hbn : isBlank (promptOf acc.session n) = true <;>
        simp [List.filter_cons, hbn]
    · rw [ge, h7, okOf_congr a prev.session acc.session n h1,
        List.filterMap_append, filterMap_singleton_toList, List.append_assoc]

theorem editAll_spec (a : Nat → Except String String) (s : Session) :
    (editAllImages a s).session.processed_results =
        (List.range s.loaded_images.length).filterMap (recOf a s) ∧
    (editAllImages a s).warnings =
        (List.range s.loaded_images.length).filterMap (warnOf s) ∧
    (editAllImages a s).calls =
        (List.range s.loaded_images.length).filter
          (fun j => !isBlank (promptOf s j)) ∧
    (editAllImages a s).session.edited_images =
        (List.range s.loaded_images.length).filterMap (okOf a s) ∧
    (editAllImages a s).session.processing_complete = true := by
  unfold editAllImages
  set s0 : Session := { s with processed_results := [], processing_complete := false,
                               processing_progress := 0, current_image_index := 0,
                               edited_images := [] } with hs0
  have hE : ∀ j, j < s.loaded_images.length →
      alookup (⟨s0, [], []⟩ : BatchOut).session.edited_images j = none := by
    intro j hj
    rfl
  obtain ⟨h1, h2, h3, h4, h5, h6, h7⟩ :=
    batch_foldl_spec a s.loaded_images.length ⟨s0, [], []⟩ s.loaded_images.length hE
  have hps : s0.individual_prompts = s.individual_prompts := rfl
  have hq : s0.image_paths = s.image_paths := rfl
  refine ⟨?_, ?_, ?_, ?_, rfl⟩
  · rw [h4]
    simp only [List.nil_append]
    exact List.filterMap_congr (fun j hj => recOf_congr a s0 s j hps hq)
  · rw [h5]
    simp only [List.nil_append]
    exact List.filterMap_congr (fun j hj => warnOf_congr s0 s j hps)
  · rw [h6]
    simp only [List.nil_append]
    apply List.filter_congr
    intro j hj
    rw [promptOf_congr s0 s j hps]
  · rw [h7]
    simp only [List.nil_append]
    exact List.filterMap_congr (fun j hj => okOf_congr a s0 s j hps)

theorem alookup_filterMap_okOf (a : Nat → Except String String) (s : Session)
    (n i : Nat) :
    alookup ((List.range n).filterMap (okOf a s)) i =
      if i < n then Option.map Prod.snd (okOf a s i) else none := by
  induction n with
  | zero => simp [alookup]
  | succ n ih =>
    rw [List.range_succ n, List.filterMap_append, alookup_append, ih,
      filterMap_singleton_toList]
    have htail : alookup (okOf a s n).toList i =
        if i = n then Option.map Prod.snd (okOf a s n) else none := by
      match ho : okOf a s n with
      | none => simp [alookup]
      | some q =>
        obtain ⟨k, v⟩ := q
        have hk : k = n := okOf_key a s n (k, v) ho
        subst hk
        by_cases hin : i = k
        · subst hin
          simp [alookup]
        · simp [alookup, hin, Ne.symm hin]
    rw [htail]
    by_cases h1 : i < n
    · rw [if_pos h1, if_pos (by omega : i < n + 1), if_neg (by omega : ¬ i = n)]
      match ho : okOf a s i with
      | some q => rfl
      | none => rfl
    · by_cases h2 : i = n
      · subst h2
        rw [if_neg h1, if_pos (by omega : i < i + 1), if_pos rfl]
      · rw [if_neg h1, if_neg (by omega : ¬ i < n + 1), if_neg h2]

theorem filterMap_eq_map_of_forall {α β : Type} (l : List α) (f : α → Option β)
    (g : α → β) (h : ∀ x ∈ l, f x = some (g x)) : l.filterMap f = l.map g := by
  induction l with
  | nil => rfl
  | cons x t ih =>
    rw [List.filterMap_cons, h x (by simp), List.map_cons,
      ih (fun y hy => h y (by simp [hy]))]

/-- Claim C3: in a whole-batch run over K loaded images all holding non-blank
prompts, if the adapter raises for exactly one index `j` (with message `emsg`)
and succeeds for every other index, then the emitted result list is exactly
one record per image in order — the `j`-th a failure record whose response
text embeds the original error message (`"Error: " ++ emsg`), every other a
success record — so there are K records in total, and the adapter is invoked
for every image, i.e. the failure stops no later image from being attempted. -/
theorem C3_single_failure_batch (a : Nat → Except String String) (s : Session)
    (j : Nat) (emsg : String)
    (hall : ∀ i, i < s.loaded_images.length → isBlank (promptOf s i) = false)
    (hj : j < s.loaded_images.length)
    (herr : a j = .error emsg)
    (hok : ∀ i, i < s.loaded_images.length → i ≠ j → ∃ r, a i = .ok r) :
    (editAllImages a s).session.processed_results =
      (List.range s.loaded_images.length).map (fun i =>
        if i = j then ⟨imgPathAt s i, "Error: " ++ emsg⟩
        else ⟨imgPathAt s i, "Image edited with prompt: " ++ promptOf s i⟩) ∧
    (editAllImages a s).session.processed_results.length =
      s.loaded_images.length ∧
    (editAllImages a s).calls = List.range s.loaded_images.length := by
  have hres := (editAll_spec a s).1
  have hcalls := (editAll_spec a s).2.2.1
  have hmap : (editAllImages a s).session.processed_results =
      (List.range s.loaded_images.length).map (fun i =>
        if i = j then (⟨imgPathAt s i, "Error: " ++ emsg⟩ : ResultRec)
        else ⟨imgPathAt s i, "Image edited with prompt: " ++ promptOf s i⟩) := by
    rw [hres]
    apply filterMap_eq_map_of_forall
    intro i hi
    have hi2 : i < s.loaded_images.length := List.mem_range.mp hi
    by_cases hij : i = j
    · subst hij
      simp [recOf, hall i hi2, herr]
    · obtain ⟨r, har⟩ := hok i hi2 hij
      simp [recOf, hall i hi2, har, hij]
  refine ⟨hmap, ?_, ?_⟩
  · rw [hmap, List.length_map, List.length_range]
  · rw [hcalls]
    apply List.filter_eq_self.mpr
    intro x hx
    simp [hall x (List.mem_range.mp hx)]

/-- Claim C3 witness: a concrete two-image batch in which the call for image 0
raises `"boom"` and the call for image 1 succeeds — both images are attempted
and two records are produced. -/
theorem C3_witness :
    (editAllImages
        (fun i => if i = 0 then Except.error "boom" else Except.ok "http://res")
        ⟨[101, 102], ["a.png", "b.png"], [], false, 0, 0,
         [(0, "make it red"), (1, "make it blue")], []⟩).calls = List.range 2 ∧
    (editAllImages
        (fun i => if i = 0 then Except.error "boom" else Except.ok "http://res")
        ⟨[101, 102], ["a.png", "b.png"], [], false, 0, 0,
         [(0, "make it red"), (1, "make it blue")], []⟩).session.processed_results.length
      = 2 := by
  have h := C3_single_failure_batch
    (fun i => if i = 0 then Except.error "boom" else Except.ok "http://res")
    ⟨[101, 102], ["a.png", "b.png"], [], false, 0, 0,
     [(0, "make it red"), (1, "make it blue")], []⟩ 0 "boom"
    (by intro i hi
        simp only [List.length_cons, List.length_nil] at hi
        interval_cases i <;> decide)
    (by decide)
    rfl
    (by intro i hi hne
        simp only [List.length_cons, List.length_nil] at hi
        interval_cases i
        · exact absurd rfl hne
        · exact ⟨"http://res", rfl⟩)
  exact ⟨h.2.2, h.2.1⟩

/-- Claim C4: during a whole-batch run, an image whose prompt is empty or
whitespace-only is never sent to the edit adapter (its index is not among the
invoked calls), contributes no result record (its per-iteration record is
`none`, so the emitted list consists only of the other images' records), and
its iteration emits exactly the one skip warning — while every image with a
non-blank prompt, before or after it, is still attempted. -/
theorem C4_empty_prompt_skipped (a : Nat → Except String String) (s : Session)
    (i : Nat) (hi : i < s.loaded_images.length)
    (hb : isBlank (promptOf s i) = true) :
    i ∉ (editAllImages a s).calls ∧
    (editAllImages a s).calls =
      (List.range s.loaded_images.length).filter
        (fun j => !isBlank (promptOf s j)) ∧
    (editAllImages a s).warnings =
      (List.range s.loaded_images.length).filterMap (warnOf s) ∧
    warnOf s i = some (warnMsg i) ∧
    (editAllImages a s).session.processed_results =
      (List.range s.loaded_images.length).filterMap (recOf a s) ∧
    recOf a s i = none := by
  have hspec := editAll_spec a s
  refine ⟨?_, hspec.2.2.1, hspec.2.1, ?_, hspec.1, ?_⟩
  · rw [hspec.2.2.1]
    intro hmem
    have hcond := (List.mem_filter.mp hmem).2
    simp [hb] at hcond
  · unfold warnOf
    rw [if_pos hb]
  · unfold recOf
    rw [if_pos hb]

/-- Claim C4 witness: a concrete two-image batch where image 0 has the
whitespace-only prompt `"   "` — it is not called and its skip warning is
emitted. -/
theorem C4_witness :
    0 ∉ (editAllImages (fun _ => Except.ok "http://res")
        ⟨[101, 102], ["a.png", "b.png"], [], false, 0, 0,
         [(0, "   "), (1, "brighten")], []⟩).calls ∧
    warnOf ⟨[101, 102], ["a.png", "b.png"], [], false, 0, 0,
        [(0, "   "), (1, "brighten")], []⟩ 0 = some (warnMsg 0) := by
  have h := C4_empty_prompt_skipped (fun _ => Except.ok "http://res")
    ⟨[101, 102], ["a.png", "b.png"], [], false, 0, 0,
     [(0, "   "), (1, "brighten")], []⟩ 0 (by decide) (by decide)
  exact ⟨h.1, h.2.2.2.1⟩

/-- Claim C9: the `edited_images` mapping only ever holds values returned by
successfully completed adapter calls.  After a whole-batch run, every entry of
the mapping is the value of a successful call on a non-blank-prompt image, and
an index whose call raised has no entry; and in the single-image handler, an
adapter error leaves `edited_images` (indeed the whole session) unchanged —
only the batch results list ever receives an error record. -/
theorem C9_edited_images_integrity :
    (∀ a s i r,
      alookup ((editAllImages a s).session.edited_images) i = some r →
        a i = .ok r ∧ isBlank (promptOf s i) = false) ∧
    (∀ a s i msg, a i = .error msg →
        alookup ((editAllImages a s).session.edited_images) i = none) ∧
    (∀ e s i, (editSingleImage (.error e) s i).1.edited_images =
        s.edited_images) := by
  refine ⟨?_, ?_, ?_⟩
  · intro a s i r h
    rw [(editAll_spec a s).2.2.2.1, alookup_filterMap_okOf] at h
    by_cases hlt : i < s.loaded_images.length
    · rw [if_pos hlt] at h
      match ho : okOf a s i with
      | none =>
        rw [ho] at h
        exact absurd h (by simp)
      | some q =>
        rw [ho] at h
        simp only [Option.map_some'] at h
        obtain ⟨hb, ha⟩ := okOf_eq_some a s i q ho
        have hq : q.2 = r := by simpa using h
        rw [hq] at ha
        exact ⟨ha, hb⟩
    · rw [if_neg hlt] at h
      exact absurd h (by simp)
  · intro a s i msg he
    rw [(editAll_spec a s).2.2.2.1, alookup_filterMap_okOf]
    by_cases hlt : i < s.loaded_images.length
    · rw [if_pos hlt, okOf_of_error a s i msg he]
      rfl
    · rw [if_neg hlt]
  · intro e s i
    by_cases hbl : isBlank (promptOf s i) = true <;> simp [editSingleImage, hbl]

/-- Claim C9 witness: with an adapter that raises on the single loaded image,
the batch run leaves no `edited_images` entry for it. -/
theorem C9_witness :
    alookup ((editAllImages (fun _ => Except.error "boom")
        ⟨[101], ["a.png"], [], false, 0, 0, [(0, "some prompt")], []⟩).session.edited_images)
      0 = none :=
  C9_edited_images_integrity.2.1 (fun _ => Except.error "boom")
    ⟨[101], ["a.png"], [], false, 0, 0, [(0, "some prompt")], []⟩ 0 "boom" rfl
